import Mathlib

/-!
# QFolio — verification of the QUBO portfolio-optimization core

Shallow embedding, over exact rationals, of the classical core of the QFolio
repository (QAOA-based portfolio selection): the QUBO-matrix construction, the
returns/covariance estimators, the quadratic-program assembly, and the
solution-analysis metric computations, as implemented in

* `Real Time Implementation/qaoa.py` (class `QAOA`),
* `Small-Scale Implementation/qaoa_mag7.py` (class `Magnificent_7`),
* `Small-Scale Implementation/simulator_vs_hardware.py` (class `Magnificent_7`),
* `yfinance_extraction.py` (class `Magnificent_7`),
* `qaoa_3_stock_example.py`.

Matrices are embedded as functions `ℕ → ℕ → ℚ` (a numpy array of shape n×n is
its entry function; indices ≥ n are never consulted by the embedded loops),
price/return tables as `List (List ℚ)` of rows, and Python exceptions as
`Except String`.  Square roots leave `ℚ`, so wherever the source applies
`np.sqrt` to a value v we reason about the radicand v; since `Real.sqrt` is
injective on nonnegatives, equalities and inequalities of radicands transfer
to the reported risks.
-/

namespace QFolio

/-- `build_qubo_matrix` of `qaoa.py` / `qaoa_mag7.py` / `simulator_vs_hardware.py`:
zero-initialise, set each diagonal entry to
`risk_aversion * sigma[i,i] - mu[i,0] + penalty_strength * (1 - 2*B)`,
then for each `i < j` set both `[i,j]` and `[j,i]` to
`risk_aversion * sigma[i,j] + 2 * penalty_strength`.
Hence the entry at `(i, j)` with `i > j` was written by the loop iteration
`(j, i)` and reads `sigma j i`. -/
def build_qubo_matrix (mu : ℕ → ℚ) (sigma : ℕ → ℕ → ℚ) (q lam : ℚ) (B : ℤ) :
    ℕ → ℕ → ℚ := fun i j =>
  if i = j then q * sigma i i - mu i + lam * (1 - 2 * B)
  else if i < j then q * sigma i j + 2 * lam
  else q * sigma j i + 2 * lam

/-- `build_qubo_matrix` of `yfinance_extraction.py` and `qubo_matrix` of
`qaoa_3_stock_example.py`: a dense double loop over all `(i, j)`,
`qubo[i][i] = q * sigma[i][i] - mu[i] + lam * (1 - 2 * B)` on the diagonal and
`qubo[i][j] = q * sigma[i][j] + 2 * lam` off it. -/
def build_qubo_matrix_dense (mu : ℕ → ℚ) (sigma : ℕ → ℕ → ℚ) (q lam : ℚ)
    (B : ℤ) : ℕ → ℕ → ℚ := fun i j =>
  if i = j then q * sigma i i - mu i + lam * (1 - 2 * B)
  else q * sigma i j + 2 * lam

/-- C1: for every mean vector `mu`, covariance matrix `sigma` (symmetric, as
every covariance matrix is), budget `B`, risk-aversion `q` and penalty `lam`,
the QUBO builders return a matrix whose diagonal entry `i` is
`q·sigma[i][i] − mu[i] + lam·(1−2B)` and whose off-diagonal entry `(i,j)`,
`i ≠ j`, is `q·sigma[i][j] + 2·lam`.  Stated for both builder variants. -/
theorem qubo_entries_formula (mu : ℕ → ℚ) (sigma : ℕ → ℕ → ℚ) (q lam : ℚ)
    (B : ℤ) (hsym : ∀ i j, sigma i j = sigma j i) (i j : ℕ) (hij : i ≠ j) :
    build_qubo_matrix mu sigma q lam B i i
        = q * sigma i i - mu i + lam * (1 - 2 * B) ∧
    build_qubo_matrix mu sigma q lam B i j = q * sigma i j + 2 * lam ∧
    build_qubo_matrix_dense mu sigma q lam B i i
        = q * sigma i i - mu i + lam * (1 - 2 * B) ∧
    build_qubo_matrix_dense mu sigma q lam B i j = q * sigma i j + 2 * lam := by
  refine ⟨by simp [build_qubo_matrix], ?_, by simp [build_qubo_matrix_dense],
    by simp [build_qubo_matrix_dense, hij]⟩
  rcases lt_or_gt_of_ne hij with h | h
  · simp [build_qubo_matrix, hij, h]
  · simp [build_qubo_matrix, hij, Nat.lt_asymm h, h, hsym i j]

/-- Witness for C1 at a concrete symmetric 2×2 instance. -/
theorem qubo_entries_formula_witness :
    (∀ i j, (fun a b : ℕ => ((a * b + 1 : ℕ) : ℚ)) i j
        = (fun a b : ℕ => ((a * b + 1 : ℕ) : ℚ)) j i) ∧ (0 : ℕ) ≠ 1 ∧
    build_qubo_matrix (fun i => (i : ℚ)) (fun a b => ((a * b + 1 : ℕ) : ℚ))
        1 10 2 0 1 = 1 * 1 + 2 * 10 :=
  ⟨fun i j => by push_cast; ring, by decide,
    (qubo_entries_formula (fun i => (i : ℚ)) (fun a b => ((a * b + 1 : ℕ) : ℚ))
      1 10 2 (fun i j => by push_cast; ring) 0 1 (by decide)).2.1⟩

/-- C3: for all valid inputs (`sigma` symmetric, as every covariance matrix
is), the QUBO builders return an exactly symmetric matrix:
`Q[i][j] = Q[j][i]` for every pair of indices.  The explicit-loop builder is
symmetric for arbitrary `sigma`; the dense builder inherits symmetry from
`sigma`. -/
theorem qubo_symmetric (mu : ℕ → ℚ) (sigma : ℕ → ℕ → ℚ) (q lam : ℚ) (B : ℤ)
    (hsym : ∀ i j, sigma i j = sigma j i) (i j : ℕ) :
    build_qubo_matrix mu sigma q lam B i j = build_qubo_matrix mu sigma q lam B j i ∧
    build_qubo_matrix_dense mu sigma q lam B i j
      = build_qubo_matrix_dense mu sigma q lam B j i := by
  constructor
  · rcases lt_trichotomy i j with h | h | h
    · simp [build_qubo_matrix, h, Nat.ne_of_lt h, Nat.lt_asymm h,
        (Nat.ne_of_lt h).symm]
    · simp [build_qubo_matrix, h]
    · simp [build_qubo_matrix, h, Nat.ne_of_gt h, Nat.lt_asymm h,
        (Nat.ne_of_gt h).symm]
  · rcases eq_or_ne i j with h | h
    · simp [build_qubo_matrix_dense, h]
    · simp [build_qubo_matrix_dense, h, h.symm, hsym i j]

/-- Witness for C3 at a concrete symmetric 2×2 instance. -/
theorem qubo_symmetric_witness :
    (∀ i j, (fun a b : ℕ => ((a * b + 1 : ℕ) : ℚ)) i j
        = (fun a b : ℕ => ((a * b + 1 : ℕ) : ℚ)) j i) ∧
    build_qubo_matrix_dense (fun i => (i : ℚ))
        (fun a b => ((a * b + 1 : ℕ) : ℚ)) 1 10 2 1 0
      = build_qubo_matrix_dense (fun i => (i : ℚ))
        (fun a b => ((a * b + 1 : ℕ) : ℚ)) 1 10 2 0 1 :=
  ⟨fun i j => by push_cast; ring,
    (qubo_symmetric (fun i => (i : ℚ)) (fun a b => ((a * b + 1 : ℕ) : ℚ))
      1 10 2 (fun i j => by push_cast; ring) 1 0).2⟩

/-- `prices.pct_change().iloc[1:]` on one price column, as in
`QAOA.compute_returns` of `qaoa.py`: pandas `pct_change` maps price `p[t]` to
`(p[t] - p[t-1]) / p[t-1]` with a leading NaN, and `iloc[1:]` drops that NaN,
leaving `[(p[1]-p[0])/p[0], …, (p[T]-p[T-1])/p[T-1]]`. -/
def pct_change_drop : List ℚ → List ℚ
  | [] => []
  | [_] => []
  | p0 :: p1 :: rest => (p1 - p0) / p0 :: pct_change_drop (p1 :: rest)

/-- `QAOA.compute_returns` of `qaoa.py`: one `pct_change().iloc[1:]` row per
ticker, collected into `all_returns`.  The source then forms
`np.array(all_returns).T`; numpy transposition is pure reindexing, so the
returned T×N matrix's `(t, i)` entry is `all_returns[i][t]`
(see `returns_entry`). -/
def compute_returns_rt (pricesByAsset : List (List ℚ)) : List (List ℚ) :=
  pricesByAsset.map pct_change_drop

/-- Entry `(t, i)` of the transposed returns matrix
`np.array(all_returns).T` returned by `QAOA.compute_returns`. -/
def returns_entry (pricesByAsset : List (List ℚ)) (t i : ℕ) : ℚ :=
  ((compute_returns_rt pricesByAsset).getD i []).getD t 0

/-- `DataFrame.pct_change().dropna()` on a whole price table (rows = dates,
columns = assets), as in `Magnificent_7.compute_returns` of `qaoa_mag7.py` and
`simulator_vs_hardware.py`: row `t ≥ 1` becomes the elementwise change
`(row[t] - row[t-1]) / row[t-1]` and the all-NaN first row is dropped. -/
def df_pct_change_drop : List (List ℚ) → List (List ℚ)
  | [] => []
  | [_] => []
  | r0 :: r1 :: rest =>
      List.zipWith (fun a b => (b - a) / a) r0 r1 :: df_pct_change_drop (r1 :: rest)

/-- `Magnificent_7.compute_returns` of `qaoa_mag7.py`: raises
`ValueError("Insufficient data to compute returns")` when the pct-change
table is empty, otherwise returns it. -/
def compute_returns_mag7 (data : List (List ℚ)) : Except String (List (List ℚ)) :=
  if (df_pct_change_drop data).isEmpty then
    .error "Insufficient data to compute returns"
  else .ok (df_pct_change_drop data)

/-- `Magnificent_7.compute_returns` of `simulator_vs_hardware.py`: raises
`ValueError("Insufficient data for return calculation")` when the pct-change
table has fewer than 2 rows, otherwise returns it. -/
def compute_returns_simhw (data : List (List ℚ)) : Except String (List (List ℚ)) :=
  if (df_pct_change_drop data).length < 2 then
    .error "Insufficient data for return calculation"
  else .ok (df_pct_change_drop data)

/-- Whether an embedded fallible computation returned normally. -/
def returns_ok (e : Except String (List (List ℚ))) : Bool :=
  match e with
  | .ok _ => true
  | .error _ => false

lemma pct_change_drop_getD (l : List ℚ) (t : ℕ) (h : t + 1 < l.length) :
    (pct_change_drop l).getD t 0
      = (l.getD (t + 1) 0 - l.getD t 0) / l.getD t 0 := by
  induction l using pct_change_drop.induct generalizing t with
  | case1 => simp at h
  | case2 => simp at h
  | case3 p0 p1 rest ih =>
      cases t with
      | zero => simp [pct_change_drop]
      | succ t =>
          have ht : t + 1 < (p1 :: rest).length := by
            simpa [Nat.succ_lt_succ_iff] using h
          simpa [pct_change_drop] using ih t ht

lemma getD_map_pct (l : List (List ℚ)) (i : ℕ) :
    ((l.map pct_change_drop).getD i []) = pct_change_drop (l.getD i []) := by
  induction l generalizing i with
  | nil => simp [pct_change_drop]
  | cons a t ih =>
      cases i with
      | zero => simp
      | succ i => simpa using ih i

lemma zipWith_pct_getD (r0 r1 : List ℚ) (i : ℕ) (h0 : i < r0.length)
    (h1 : i < r1.length) :
    (List.zipWith (fun a b => (b - a) / a) r0 r1).getD i 0
      = (r1.getD i 0 - r0.getD i 0) / r0.getD i 0 := by
  induction r0 generalizing r1 i with
  | nil => simp at h0
  | cons a u ih =>
      cases r1 with
      | nil => simp at h1
      | cons b v =>
          cases i with
          | zero => simp
          | succ i =>
              simp only [List.zipWith_cons_cons, List.getD_cons_succ]
              exact ih v i (by simpa using h0) (by simpa using h1)

lemma df_pct_change_drop_getD : ∀ (data : List (List ℚ)) (t i : ℕ),
    t + 1 < data.length → i < (data.getD t []).length →
    i < (data.getD (t + 1) []).length →
    ((df_pct_change_drop data).getD t []).getD i 0
      = ((data.getD (t + 1) []).getD i 0 - (data.getD t []).getD i 0)
        / (data.getD t []).getD i 0
  | [], _, _, ht, _, _ => by simp at ht
  | [_], _, _, ht, _, _ => by simp at ht
  | r0 :: r1 :: rest, 0, i, _, h0, h1 => by
      simp only [List.getD_cons_zero, List.getD_cons_succ] at h0 h1 ⊢
      simpa only [df_pct_change_drop, List.getD_cons_zero]
        using zipWith_pct_getD r0 r1 i h0 h1
  | r0 :: r1 :: rest, t + 1, i, ht, h0, h1 => by
      simp only [List.getD_cons_succ] at h0 h1 ⊢
      simpa only [df_pct_change_drop, List.getD_cons_succ]
        using df_pct_change_drop_getD (r1 :: rest) t i
          (by simpa using ht) h0 h1

lemma df_pct_change_drop_length (data : List (List ℚ)) :
    (df_pct_change_drop data).length = data.length - 1 := by
  induction data using df_pct_change_drop.induct with
  | case1 => simp [df_pct_change_drop]
  | case2 => simp [df_pct_change_drop]
  | case3 r0 r1 rest ih => simp [df_pct_change_drop, ih]

/-- C4: for every aligned price series, both cited returns computations
produce a matrix whose `(t, i)` entry is the simple percentage change
`(price[t+1, i] − price[t, i]) / price[t, i]` (not the log-return):
`QAOA.compute_returns` of `qaoa.py` (per-ticker `pct_change` rows transposed
into `(t, i)` position) and `Magnificent_7.compute_returns` of
`qaoa_mag7.py`, which returns the DataFrame `pct_change` table unchanged
whenever it is nonempty. -/
theorem returns_entry_pct_change (pricesByAsset data : List (List ℚ))
    (t i : ℕ) (hrt : t + 1 < (pricesByAsset.getD i []).length)
    (ht : t + 1 < data.length) (h0 : i < (data.getD t []).length)
    (h1 : i < (data.getD (t + 1) []).length) :
    returns_entry pricesByAsset t i
      = ((pricesByAsset.getD i []).getD (t + 1) 0
          - (pricesByAsset.getD i []).getD t 0)
        / (pricesByAsset.getD i []).getD t 0 ∧
    compute_returns_mag7 data = .ok (df_pct_change_drop data) ∧
    ((df_pct_change_drop data).getD t []).getD i 0
      = ((data.getD (t + 1) []).getD i 0 - (data.getD t []).getD i 0)
        / (data.getD t []).getD i 0 := by
  refine ⟨?_, ?_, df_pct_change_drop_getD data t i ht h0 h1⟩
  · unfold returns_entry compute_returns_rt
    rw [getD_map_pct]
    exact pct_change_drop_getD _ t hrt
  · unfold compute_returns_mag7
    have hne : ¬ ((df_pct_change_drop data).isEmpty = true) := by
      rw [List.isEmpty_iff, ← List.length_eq_zero, df_pct_change_drop_length]
      omega
    rw [if_neg hne]

/-- Witness for C4: prices 1, 2, 4 for `qaoa.py` (return `(4 − 2) / 2` at
`t = 1`) and a two-asset three-row table for `qaoa_mag7.py`. -/
theorem returns_entry_pct_change_witness :
    (1 + 1 < (([[(1 : ℚ), 2, 4]].getD 0 []).length) ∧
     1 + 1 < ([[(1 : ℚ), 10], [2, 20], [4, 40]] : List (List ℚ)).length ∧
     0 < (([[(1 : ℚ), 10], [2, 20], [4, 40]] : List (List ℚ)).getD 1 []).length ∧
     0 < (([[(1 : ℚ), 10], [2, 20], [4, 40]] : List (List ℚ)).getD 2 []).length) ∧
    (returns_entry [[(1 : ℚ), 2, 4]] 1 0
      = (([[(1 : ℚ), 2, 4]].getD 0 []).getD 2 0
          - ([[(1 : ℚ), 2, 4]].getD 0 []).getD 1 0)
        / ([[(1 : ℚ), 2, 4]].getD 0 []).getD 1 0 ∧
     compute_returns_mag7 [[(1 : ℚ), 10], [2, 20], [4, 40]]
      = .ok (df_pct_change_drop [[(1 : ℚ), 10], [2, 20], [4, 40]]) ∧
     ((df_pct_change_drop [[(1 : ℚ), 10], [2, 20], [4, 40]]).getD 1 []).getD 0 0
      = ((([[(1 : ℚ), 10], [2, 20], [4, 40]] : List (List ℚ)).getD 2 []).getD 0 0
          - (([[(1 : ℚ), 10], [2, 20], [4, 40]] : List (List ℚ)).getD 1 []).getD 0 0)
        / (([[(1 : ℚ), 10], [2, 20], [4, 40]] : List (List ℚ)).getD 1 []).getD 0 0) :=
  ⟨⟨by decide, by decide, by decide, by decide⟩,
    returns_entry_pct_change [[(1 : ℚ), 2, 4]]
      [[(1 : ℚ), 10], [2, 20], [4, 40]] 1 0
      (by decide) (by decide) (by decide) (by decide)⟩

/-- C6 counterexample: two price rows give `T = 1 < 2` return observations,
yet `Magnificent_7.compute_returns` of `qaoa_mag7.py` returns the degenerate
1-observation matrix `[[1]]` instead of raising. -/
theorem mag7_returns_T1_no_error :
    compute_returns_mag7 [[(1 : ℚ)], [2]] = .ok [[1]] ∧
    (df_pct_change_drop [[(1 : ℚ)], [2]]).length < 2 := by
  have h : df_pct_change_drop [[(1 : ℚ)], [2]] = [[1]] := by
    norm_num [df_pct_change_drop]
  refine ⟨?_, by simp [h]⟩
  unfold compute_returns_mag7
  rw [h]
  simp

/-- C6 amended: the `simulator_vs_hardware.py` estimator fails exactly when
there are fewer than 2 return observations (price tables of fewer than 3
rows), while the `qaoa_mag7.py` estimator fails only on an empty returns
table (fewer than 2 price rows) and returns a degenerate single-observation
matrix at `T = 1`. -/
theorem insufficient_data_thresholds (data : List (List ℚ)) :
    (returns_ok (compute_returns_simhw data) = true ↔ 3 ≤ data.length) ∧
    (returns_ok (compute_returns_mag7 data) = true ↔ 2 ≤ data.length) := by
  have hlen := df_pct_change_drop_length data
  constructor
  · unfold compute_returns_simhw
    split <;> rename_i hcond <;> rw [hlen] at hcond <;>
      simp only [returns_ok] <;> simp <;> omega
  · unfold compute_returns_mag7
    split <;> rename_i hcond <;>
      rw [List.isEmpty_iff, ← List.length_eq_zero, hlen] at hcond <;>
      simp only [returns_ok] <;> simp <;> omega

/-- Column `i` of a returns table (rows = observations): `np.cov(returns.T)`
treats each row of `returns.T`, i.e. each column of `returns`, as one
variable's series. -/
def returns_col (m : List (List ℚ)) (i : ℕ) : List ℚ :=
  m.map (fun r => r.getD i 0)

/-- `np.mean` of a series. -/
def np_mean (v : List ℚ) : ℚ := v.sum / v.length

/-- Entry `(i, j)` of `np.cov(returns_matrix.T)` as called by
`covariance_matrix` in `qaoa.py`, `qaoa_mag7.py`, `simulator_vs_hardware.py`
and `yfinance_extraction.py`.  Modelled from numpy's documented semantics of
`np.cov` at its default `ddof = 1`: subtract each variable's mean and divide
the dot product of the centred series by `T - 1`. -/
def covariance_matrix (m : List (List ℚ)) (i j : ℕ) : ℚ :=
  (List.zipWith
      (fun a b => (a - np_mean (returns_col m i)) * (b - np_mean (returns_col m j)))
      (returns_col m i) (returns_col m j)).sum
    / ((m.length : ℚ) - 1)

lemma zipWith_centred_sum (u v : List ℚ) (c d : ℚ) (huv : u.length = v.length) :
    (List.zipWith (fun a b => (a - c) * (b - d)) u v).sum
      = (List.zipWith (fun a b => a * b) u v).sum
        - d * u.sum - c * v.sum + u.length * (c * d) := by
  induction u generalizing v with
  | nil =>
      cases v with
      | nil => simp
      | cons b vt => simp at huv
  | cons a ut ih =>
      cases v with
      | nil => simp at huv
      | cons b vt =>
          have h' : ut.length = vt.length := by simpa using huv
          simp only [List.zipWith_cons_cons, List.sum_cons, ih vt h',
            List.length_cons]
          push_cast
          ring

lemma returns_col_length (m : List (List ℚ)) (i : ℕ) :
    (returns_col m i).length = m.length := by
  simp [returns_col]

lemma zipWith_centred_comm (c d : ℚ) : ∀ (u v : List ℚ),
    (List.zipWith (fun a b => (a - c) * (b - d)) u v).sum
      = (List.zipWith (fun a b => (a - d) * (b - c)) v u).sum
  | [], v => by cases v <;> simp
  | _ :: _, [] => by simp
  | a :: t, b :: s => by
      simp only [List.zipWith_cons_cons, List.sum_cons,
        zipWith_centred_comm c d t s]
      ring_nf

/-- C5: the covariance computation follows the sample (unbiased) convention
with denominator `T − 1`: for a table of `T ≥ 1` observations, entry `(i, j)`
equals the textbook sample covariance of columns `i` and `j`, here in its
expanded form `(Σ_t x_t·y_t − T·x̄·ȳ) / (T − 1)`, and the matrix is
symmetric. -/
theorem covariance_sample_convention (m : List (List ℚ)) (i j : ℕ)
    (hT : 1 ≤ m.length) :
    covariance_matrix m i j
      = ((List.zipWith (fun a b => a * b) (returns_col m i) (returns_col m j)).sum
          - m.length * np_mean (returns_col m i) * np_mean (returns_col m j))
        / ((m.length : ℚ) - 1) ∧
    covariance_matrix m i j = covariance_matrix m j i := by
  have hTQ : ((m.length : ℚ)) ≠ 0 :=
    Nat.cast_ne_zero.mpr (Nat.one_le_iff_ne_zero.mp hT)
  constructor
  · unfold covariance_matrix
    rw [zipWith_centred_sum _ _ _ _
      (by rw [returns_col_length, returns_col_length])]
    have hsum : ∀ k, (returns_col m k).sum
        = (m.length : ℚ) * np_mean (returns_col m k) := by
      intro k
      rw [np_mean, returns_col_length]
      field_simp
    rw [hsum i, hsum j, returns_col_length]
    congr 1
    ring
  · unfold covariance_matrix
    rw [zipWith_centred_comm]

/-- Witness for C5 on a concrete 2×2 returns table. -/
theorem covariance_sample_convention_witness :
    1 ≤ ([[ (1 : ℚ), 2], [3, 4]] : List (List ℚ)).length ∧
    covariance_matrix [[(1 : ℚ), 2], [3, 4]] 0 1
      = ((List.zipWith (fun a b => a * b)
            (returns_col [[(1 : ℚ), 2], [3, 4]] 0)
            (returns_col [[(1 : ℚ), 2], [3, 4]] 1)).sum
          - ([[ (1 : ℚ), 2], [3, 4]] : List (List ℚ)).length
            * np_mean (returns_col [[(1 : ℚ), 2], [3, 4]] 0)
            * np_mean (returns_col [[(1 : ℚ), 2], [3, 4]] 1))
        / ((([[ (1 : ℚ), 2], [3, 4]] : List (List ℚ)).length : ℚ) - 1) :=
  ⟨by decide,
    (covariance_sample_convention [[(1 : ℚ), 2], [3, 4]] 0 1 (by decide)).1⟩

/-- `[i for i in range(self.n) if x_opt[i] == 1]`, the selected-index list of
the `analyze_solution` methods (well-defined once `x_opt` has at least `n`
entries; the access itself is modelled in `analyze_solution_rt`). -/
def selected_indices (x : List ℚ) (n : ℕ) : List ℕ :=
  (List.range n).filter (fun i => x.getD i 0 == 1)

/-- Portfolio variance of `Magnificent_7.analyze_solution` in `qaoa_mag7.py`:
`portfolio_variance += sigma[i, j]` over all pairs `i, j` of selected
indices (the full double sum); the source then reports
`np.sqrt(portfolio_variance)` with no clamping of negative sums. -/
def mag7_portfolio_variance (sigma : ℕ → ℕ → ℚ) (sel : List ℕ) : ℚ :=
  (sel.map (fun i => (sel.map (fun j => sigma i j)).sum)).sum

/-- Portfolio variance of `Magnificent_7.analyze_solution` in
`simulator_vs_hardware.py`: the same full double sum over selected pairs. -/
def simhw_portfolio_variance (sigma : ℕ → ℕ → ℚ) (sel : List ℕ) : ℚ :=
  (sel.map (fun i => (sel.map (fun j => sigma i j)).sum)).sum

/-- The radicand of `np.sqrt(max(0, portfolio_variance))` in
`simulator_vs_hardware.py`'s `analyze_solution`: the clamped variance. -/
def simhw_risk_radicand (sigma : ℕ → ℕ → ℚ) (sel : List ℕ) : ℚ :=
  max 0 (simhw_portfolio_variance sigma sel)

/-- Portfolio variance of `QAOA.analyze_solution` in `qaoa.py`: over all pairs
of selected indices it adds `sigma[i, j]` when `i = j` and `2 * sigma[i, j]`
when `i ≠ j`, then multiplies the total by `0.5`; the source then reports
`np.sqrt` of this with no clamping. -/
def rt_portfolio_variance (sigma : ℕ → ℕ → ℚ) (sel : List ℕ) : ℚ :=
  (sel.map (fun i =>
      (sel.map (fun j => if i = j then sigma i j else 2 * sigma i j)).sum)).sum
    * (1 / 2)

/-- The realized-risk radicand the spec prescribes: the full double sum
`Σ_{i,j ∈ selected_set} sigma[i][j]` over the selected set, clamped to zero
from below.  Written against the spec's words (over the set of selected
indices) to compare the three implementations with it. -/
def spec_risk_radicand (sigma : ℕ → ℕ → ℚ) (s : Finset ℕ) : ℚ :=
  max 0 (∑ i ∈ s, ∑ j ∈ s, sigma i j)

/-- C2 counterexample: with `sigma = [[1]]` and the one-asset solution
`x = [1]` (selected set `{0}`), `qaoa.py`'s `analyze_solution` computes the
variance `0.5 · sigma[0][0] = 1/2`, while the claim prescribes the clamped
full double sum `1`; since `Real.sqrt` is injective on nonnegatives the
reported risks `√(1/2)` and `√1` differ as well. -/
theorem rt_variance_not_spec :
    rt_portfolio_variance (fun _ _ => 1) (selected_indices [1] 1) = 1 / 2 ∧
    spec_risk_radicand (fun _ _ => 1)
        (selected_indices [1] 1).toFinset = 1 ∧
    (1 / 2 : ℚ) ≠ 1 := by
  have hsel : selected_indices [1] 1 = [0] := by decide
  refine ⟨?_, ?_, by norm_num⟩
  · rw [hsel]; norm_num [rt_portfolio_variance]
  · rw [hsel]; simp [spec_risk_radicand]

lemma selected_indices_nodup (x : List ℚ) (n : ℕ) :
    (selected_indices x n).Nodup :=
  (List.nodup_range n).filter _

lemma list_double_sum_toFinset (sigma : ℕ → ℕ → ℚ) (sel : List ℕ)
    (h : sel.Nodup) :
    (sel.map (fun i => (sel.map (fun j => sigma i j)).sum)).sum
      = ∑ i ∈ sel.toFinset, ∑ j ∈ sel.toFinset, sigma i j := by
  rw [← List.sum_toFinset _ h]
  refine Finset.sum_congr rfl fun i _ => ?_
  rw [← List.sum_toFinset _ h]

/-- C2 amended: on any selected-index list produced from a binary solution,
`simulator_vs_hardware.py` computes the risk radicand as the clamped full
double sum (exactly the spec's prescription); `qaoa_mag7.py` computes the
full double sum but omits the clamp; and `qaoa.py` computes the half-counted
variant, which falls short of the full double sum by half the selected
diagonal mass. -/
theorem risk_radicand_variants (sigma : ℕ → ℕ → ℚ) (x : List ℚ) (n : ℕ) :
    simhw_risk_radicand sigma (selected_indices x n)
      = spec_risk_radicand sigma (selected_indices x n).toFinset ∧
    mag7_portfolio_variance sigma (selected_indices x n)
      = ∑ i ∈ (selected_indices x n).toFinset,
          ∑ j ∈ (selected_indices x n).toFinset, sigma i j ∧
    rt_portfolio_variance sigma (selected_indices x n)
      = (∑ i ∈ (selected_indices x n).toFinset,
          ∑ j ∈ (selected_indices x n).toFinset, sigma i j)
        - (∑ i ∈ (selected_indices x n).toFinset, sigma i i) / 2 := by
  set sel := selected_indices x n with hsel
  have hnd : sel.Nodup := selected_indices_nodup x n
  have hfull := list_double_sum_toFinset sigma sel hnd
  refine ⟨?_, hfull, ?_⟩
  · rw [simhw_risk_radicand, spec_risk_radicand, simhw_portfolio_variance, hfull]
  · rw [rt_portfolio_variance]
    have hrow : ∀ i ∈ sel.toFinset,
        (sel.map (fun j => if i = j then sigma i j else 2 * sigma i j)).sum
          = 2 * (∑ j ∈ sel.toFinset, sigma i j) - sigma i i := by
      intro i hi
      rw [← List.sum_toFinset _ hnd]
      have hsplit : ∀ j, (if i = j then sigma i j else 2 * sigma i j)
          = 2 * sigma i j - (if i = j then sigma i j else 0) := by
        intro j
        by_cases h : i = j
        · simp only [h, if_pos]; ring
        · simp [h]
      rw [Finset.sum_congr rfl fun j _ => hsplit j, Finset.sum_sub_distrib,
        Finset.sum_ite_eq sel.toFinset i (fun j => sigma i j), if_pos hi,
        Finset.mul_sum]
    rw [← List.sum_toFinset _ hnd, Finset.sum_congr rfl hrow,
      Finset.sum_sub_distrib, ← Finset.mul_sum]
    ring

/-- A solver result as consumed by `QAOA.analyze_solution` in `qaoa.py`:
`result.x` (possibly `None`) and `result.fval`. -/
structure OptResult where
  x : Option (List ℚ)
  fval : ℚ

/-- A non-`None` solver result as consumed by
`Magnificent_7.analyze_solution` in `simulator_vs_hardware.py`. -/
structure SimResult where
  x : List ℚ
  fval : ℚ

/-- The Magnificent-7 ticker list shared by all implementations. -/
def m7_tickers : List String :=
  ["AAPL", "MSFT", "GOOGL", "AMZN", "NVDA", "TSLA", "META"]

/-- `QAOA.analyze_solution` of `qaoa.py`.  `result.x is None` short-circuits
to the no-solution return `(None, None, None)`, modelled as `.ok none`.
Otherwise the list comprehensions index `x_opt[i]` for every `i < n`, which
raises `IndexError` (modelled as `.error`) whenever `x_opt` is shorter than
`n`; with at least one selected index the method returns the selected
tickers, `Σ mu[i]`, the half-counted variance (whose square root the source
reports as risk) and `fval`; with none selected it returns zero metrics. -/
def analyze_solution_rt (n : ℕ) (tickers : List String) (mu : ℕ → ℚ)
    (sigma : ℕ → ℕ → ℚ) (res : OptResult) :
    Except String (Option (List String × ℚ × ℚ × ℚ)) :=
  match res.x with
  | none => .ok none
  | some x_opt =>
    if x_opt.length < n then .error "IndexError: list index out of range"
    else
      if 0 < (selected_indices x_opt n).length then
        .ok (some ((selected_indices x_opt n).map (fun i => tickers.getD i ""),
          ((selected_indices x_opt n).map mu).sum,
          rt_portfolio_variance sigma (selected_indices x_opt n), res.fval))
      else
        .ok (some ((selected_indices x_opt n).map (fun i => tickers.getD i ""),
          0, 0, res.fval))

/-- `Magnificent_7.analyze_solution` of `simulator_vs_hardware.py`.  A `None`
result returns four `None`s (modelled as `none`); a solution of the wrong
length likewise; an empty selected set returns `([], 0.0, 0.0, fval)`; and
the whole body sits in a `try/except` that returns `None`s on any error, so
the method is total. -/
def analyze_solution_simhw (n : ℕ) (tickers : List String) (mu : ℕ → ℚ)
    (sigma : ℕ → ℕ → ℚ) (res : Option SimResult) :
    Option (List String × ℚ × ℚ × ℚ) :=
  match res with
  | none => none
  | some r =>
    if r.x.length ≠ n then none
    else
      if (selected_indices r.x n).isEmpty then some ([], 0, 0, r.fval)
      else some ((selected_indices r.x n).map (fun i => tickers.getD i ""),
        ((selected_indices r.x n).map mu).sum,
        simhw_risk_radicand sigma (selected_indices r.x n), r.fval)

/-- C7 counterexample: called on an empty (non-`None`) solution vector,
`QAOA.analyze_solution` of `qaoa.py` does not return a no-solution report —
evaluating `x_opt[0]` raises `IndexError`, so the operation raises. -/
theorem analyze_rt_empty_raises :
    analyze_solution_rt 7 m7_tickers (fun _ => 0) (fun _ _ => 0)
        ⟨some [], 0⟩
      = .error "IndexError: list index out of range" := rfl

/-- C7 amended: with a `None` result/solution both analyzers return their
no-solution value without raising, and `simulator_vs_hardware.py` also
handles an empty (non-`None`) solution vector via its length check, but
`qaoa.py` raises `IndexError` on an empty solution vector (see the
counterexample). -/
theorem analyze_no_solution_behaviour (tickers : List String) (mu : ℕ → ℚ)
    (sigma : ℕ → ℕ → ℚ) (f : ℚ) (n : ℕ) :
    analyze_solution_rt n tickers mu sigma ⟨none, f⟩ = .ok none ∧
    analyze_solution_simhw n tickers mu sigma none = none ∧
    analyze_solution_simhw 7 tickers mu sigma (some ⟨[], f⟩) = none := by
  refine ⟨rfl, rfl, ?_⟩
  simp [analyze_solution_simhw]

/-- Squared Euclidean norm of a vector; `np.linalg.norm` returns its square
root. -/
def norm_sq (v : List ℚ) : ℚ := (v.map (fun a => a * a)).sum

/-- `Magnificent_7.choose_parameters` of `yfinance_extraction.py` sets
`self.lam = (np.linalg.norm(mu) / np.sqrt(self.n)) * 0.5` and the main flow
passes that `lam` to `build_qubo_matrix`.  The square root leaves `ℚ`, so we
track the square of the source's expression, `λ² = ‖mu‖² / n · ¼`, which
determines the nonnegative `λ` uniquely. -/
def choose_parameters_lam_sq (n : ℕ) (mu : List ℚ) : ℚ :=
  norm_sq mu / n * (1 / 4)

/-- `self.penalty_strength = 10.0` fixed in the constructors of `qaoa.py`,
`qaoa_mag7.py` and `simulator_vs_hardware.py`. -/
def rt_penalty_strength : ℚ := 10

/-- C8 counterexample: the λ the `yfinance_extraction.py` pipeline feeds into
the QUBO build is computed by `choose_parameters` from `mu` and `N` — change
only `mu` and the λ changes (here via its square; λ ≥ 0, so distinct squares
mean distinct λ).  It is therefore derived, not caller-supplied. -/
theorem lam_depends_on_mu :
    choose_parameters_lam_sq 7 [1, 0, 0, 0, 0, 0, 0]
      ≠ choose_parameters_lam_sq 7 [2, 0, 0, 0, 0, 0, 0] := by
  norm_num [choose_parameters_lam_sq, norm_sq]

lemma norm_sq_map_mul (c : ℚ) (v : List ℚ) :
    norm_sq (v.map (fun a => c * a)) = c ^ 2 * norm_sq v := by
  induction v with
  | nil => simp [norm_sq]
  | cons a t ih =>
      simp only [List.map_cons, norm_sq, List.sum_cons] at *
      rw [ih]; ring

/-- C8 amended: λ is not a caller-supplied tunable.  In
`yfinance_extraction.py` it is auto-derived from `mu` and `N` by
`choose_parameters` (`λ = 0.5·‖mu‖/√N`): scaling `mu` by `c` scales `λ²` by
`c²`, so λ varies with the data.  In the other implementations λ is the
hard-coded constant `10.0` set in `__init__`. -/
theorem lam_scales_with_mu (n : ℕ) (c : ℚ) (mu : List ℚ) :
    choose_parameters_lam_sq n (mu.map (fun a => c * a))
      = c ^ 2 * choose_parameters_lam_sq n mu ∧
    rt_penalty_strength = 10 := by
  refine ⟨?_, rfl⟩
  unfold choose_parameters_lam_sq
  rw [norm_sq_map_mul]
  ring

/-- The budget validation at the top of the constructors of `qaoa.py`,
`qaoa_mag7.py` and `simulator_vs_hardware.py`:
`if not (1 <= B <= self.n): raise ValueError(...)`, with `n = 7` tickers.
The remainder of the constructor (the data download) is an external
collaborator outside this core. -/
def qaoa_init_check (n : ℕ) (B : ℤ) : Except String ℤ :=
  if ¬(1 ≤ B ∧ B ≤ n) then .error "Budget must be between 1 and n"
  else .ok B

/-- `Magnificent_7.__init__` of `yfinance_extraction.py` stores `self.B = B`
with no validation of any kind — no range check on `B` occurs anywhere in
that file. -/
def m7_yf_init_check (B : ℤ) : Except String ℤ := .ok B

/-- Whether an embedded constructor returned normally. -/
def init_ok (e : Except String ℤ) : Bool :=
  match e with
  | .ok _ => true
  | .error _ => false

/-- C9 counterexample: constructing `Magnificent_7` of
`yfinance_extraction.py` with the out-of-range budget `B = 0` succeeds — no
input-validation error is raised. -/
theorem yf_init_accepts_invalid_budget :
    m7_yf_init_check 0 = .ok 0 ∧ ¬((1 : ℤ) ≤ 0) :=
  ⟨rfl, by decide⟩

/-- C9 amended: the constructors of `qaoa.py`, `qaoa_mag7.py` and
`simulator_vs_hardware.py` fail exactly when `B` lies outside `[1, N]` and
succeed inside it, but `yfinance_extraction.py` performs no budget
validation and accepts every `B`. -/
theorem budget_validation (B : ℤ) :
    (init_ok (qaoa_init_check 7 B) = true ↔ 1 ≤ B ∧ B ≤ 7) ∧
    m7_yf_init_check B = .ok B := by
  refine ⟨?_, rfl⟩
  unfold qaoa_init_check
  split <;> rename_i h <;> simp only [init_ok] <;> simp <;>
    push_cast at h <;> omega

/-- The quadratic program assembled by `build_quadratic_program`: binary
variables `x0 … x_{n−1}`, a linear/quadratic objective given as coefficient
dictionaries (an absent pair means coefficient 0), and one linear constraint
with its coefficients, right-hand side and sense. -/
structure QuadProgram where
  linear : ℕ → ℚ
  quadratic : ℕ → ℕ → ℚ
  constraint_coeffs : ℕ → ℚ
  constraint_rhs : ℤ
  constraint_sense : String

/-- `build_quadratic_program` of `qaoa.py` (identical in `qaoa_mag7.py` and
`simulator_vs_hardware.py`): the objective's linear coefficients are the QUBO
diagonal; the quadratic coefficient of each pair `(i, j)`, `i < j`, is
`qubo[i, j]` when nonzero (pairs skipped by the `!= 0` guard are absent from
the dict, i.e. coefficient 0 — which is `qubo[i, j]` in that case); and the
linear equality constraint `Σ_i x_i == B` (`"asset_selection"`) is attached
to the same program. -/
def build_quadratic_program (n : ℕ) (qubo : ℕ → ℕ → ℚ) (B : ℤ) :
    QuadProgram where
  linear := fun i => if i < n then qubo i i else 0
  quadratic := fun i j =>
    if i < n ∧ i < j ∧ j < n ∧ qubo i j ≠ 0 then qubo i j else 0
  constraint_coeffs := fun i => if i < n then 1 else 0
  constraint_rhs := B
  constraint_sense := "=="

/-- `minimize_qubo` of `yfinance_extraction.py` (and step 4 of
`qaoa_3_stock_example.py`): linear objective coefficients from the QUBO
diagonal, quadratic coefficient `2 * qubo[i][j]` at each pair `(i, j)`,
`i < j` (no nonzero guard), and the linear equality constraint
`Σ_i x_i == B` (`"Budget"` / `"budget"`) attached to the same program. -/
def minimize_qubo_program (n : ℕ) (qubo : ℕ → ℕ → ℚ) (B : ℤ) :
    QuadProgram where
  linear := fun i => if i < n then qubo i i else 0
  quadratic := fun i j => if i < n ∧ i < j ∧ j < n then 2 * qubo i j else 0
  constraint_coeffs := fun i => if i < n then 1 else 0
  constraint_rhs := B
  constraint_sense := "=="

/-- C10 counterexample: the program `minimize_qubo` of
`yfinance_extraction.py` hands to the optimizer does not carry the `2λ`
penalty as its off-diagonal objective coefficient: at
`n = 2, mu = 0, sigma ≡ 1, q = 1, λ = 10, B = 1` the QUBO entry is
`q·σ₀₁ + 2λ = 21` but the program's quadratic coefficient for the pair
`(0, 1)` is the doubled `42` — while the explicit `Σ x_i = 1` constraint is
still attached. -/
theorem minimize_qubo_doubles_offdiag :
    (minimize_qubo_program 2
        (build_qubo_matrix_dense (fun _ => 0) (fun _ _ => 1) 1 10 1)
        1).quadratic 0 1 = 42 ∧
    (42 : ℚ) ≠ 1 * 1 + 2 * 10 ∧
    (minimize_qubo_program 2
        (build_qubo_matrix_dense (fun _ => 0) (fun _ _ => 1) 1 10 1)
        1).constraint_rhs = 1 := by
  refine ⟨?_, by norm_num, rfl⟩
  norm_num [minimize_qubo_program, build_qubo_matrix_dense]

/-- C10 amended: every quadratic program handed to the optimizer attaches
the explicit linear equality `Σ_i x_i = B` and an objective with the
cardinality penalty folded in — linear coefficients
`q·σᵢᵢ − μᵢ + λ(1−2B)` from the QUBO diagonal in all assemblies — but the
off-diagonal quadratic coefficients differ: `build_quadratic_program`
(`qaoa.py`, `qaoa_mag7.py`, `simulator_vs_hardware.py`) uses the raw QUBO
entry `q·σᵢⱼ + 2λ`, while `minimize_qubo` (`yfinance_extraction.py`) and
`qaoa_3_stock_example.py` use the pair-doubled entry `2(q·σᵢⱼ + 2λ)`. -/
theorem program_carries_both_encodings (n : ℕ) (mu : ℕ → ℚ)
    (sigma : ℕ → ℕ → ℚ) (q lam : ℚ) (B : ℤ) :
    (∀ i, i < n →
      (build_quadratic_program n (build_qubo_matrix mu sigma q lam B) B).linear i
        = q * sigma i i - mu i + lam * (1 - 2 * B)) ∧
    (∀ i j, i < j → j < n →
      (build_quadratic_program n (build_qubo_matrix mu sigma q lam B) B).quadratic i j
        = q * sigma i j + 2 * lam) ∧
    (∀ i, i < n →
      (build_quadratic_program n
        (build_qubo_matrix mu sigma q lam B) B).constraint_coeffs i = 1) ∧
    (build_quadratic_program n
      (build_qubo_matrix mu sigma q lam B) B).constraint_rhs = B ∧
    (build_quadratic_program n
      (build_qubo_matrix mu sigma q lam B) B).constraint_sense = "==" ∧
    (∀ i, i < n →
      (minimize_qubo_program n
        (build_qubo_matrix_dense mu sigma q lam B) B).linear i
        = q * sigma i i - mu i + lam * (1 - 2 * B)) ∧
    (∀ i j, i < j → j < n →
      (minimize_qubo_program n
        (build_qubo_matrix_dense mu sigma q lam B) B).quadratic i j
        = 2 * (q * sigma i j + 2 * lam)) ∧
    (∀ i, i < n →
      (minimize_qubo_program n
        (build_qubo_matrix_dense mu sigma q lam B) B).constraint_coeffs i = 1) ∧
    (minimize_qubo_program n
      (build_qubo_matrix_dense mu sigma q lam B) B).constraint_rhs = B ∧
    (minimize_qubo_program n
      (build_qubo_matrix_dense mu sigma q lam B) B).constraint_sense = "==" := by
  refine ⟨fun i hi => ?_, fun i j hij hjn => ?_, fun i hi => ?_, rfl, rfl,
    fun i hi => ?_, fun i j hij hjn => ?_, fun i hi => ?_, rfl, rfl⟩
  · simp [build_quadratic_program, build_qubo_matrix, hi]
  · have hin : i < n := lt_trans hij hjn
    have hq : build_qubo_matrix mu sigma q lam B i j
        = q * sigma i j + 2 * lam := by
      simp [build_qubo_matrix, Nat.ne_of_lt hij, hij]
    by_cases hz : q * sigma i j + 2 * lam = 0
    · simp [build_quadratic_program, hq, hin, hij, hjn, hz]
    · simp [build_quadratic_program, hq, hin, hij, hjn, hz]
  · simp [build_quadratic_program, hi]
  · simp [minimize_qubo_program, build_qubo_matrix_dense, hi]
  · have hin : i < n := lt_trans hij hjn
    simp [minimize_qubo_program, build_qubo_matrix_dense, hin, hij, hjn,
      Nat.ne_of_lt hij]
  · simp [minimize_qubo_program, hi]

/-- Witness for C10 at a concrete 2-asset instance. -/
theorem program_carries_both_encodings_witness :
    (0 : ℕ) < 2 ∧
    (build_quadratic_program 2
        (build_qubo_matrix (fun _ => 0) (fun _ _ => 1) 1 10 1) 1).linear 0
      = 1 * 1 - 0 + 10 * (1 - 2 * 1) :=
  ⟨by decide,
    (program_carries_both_encodings 2 (fun _ => 0) (fun _ _ => 1) 1 10 1).1
      0 (by decide)⟩

end QFolio
